import Mathlib

/-!
Verification of the animation theme table and content-glob configuration of
the `vite-vue-tailwind-101` repository.

The repository's only structured artifact is a Tailwind configuration file
declaring a content-scanning glob list and a theme extension with three
keyframe animations (`fadeIn`, `zoomPulse`, `swingRotate`) bound to named
animation utilities.  We embed that configuration as Lean data, embed the
spec's `resolve` lookup operation over it, and prove the spec's claims.
-/

namespace VTT

/-- One CSS style property/value pair, e.g. `opacity: '0'` or
`transform: 'scale(1)'`. -/
structure StyleProperty where
  property : String
  value : String
deriving DecidableEq, Repr

/-- One keyframe block of a `keyframes` entry: the percent offsets named by
the selector key (a comma-separated key such as `'0%, 100%'` contributes
several offsets) together with the style properties of the block. -/
structure KeyframeBlock where
  offsets : List Nat
  styles : List StyleProperty
deriving DecidableEq, Repr

/-- One entry of `theme.extend.keyframes`: a name and its keyframe blocks. -/
structure KeyframesEntry where
  name : String
  blocks : List KeyframeBlock
deriving DecidableEq, Repr

/-- A CSS animation timing function, as used in this configuration. -/
inductive TimingFunction where
  | easeInOut
  | cubicBezier (x1 y1 x2 y2 : ℚ)
deriving DecidableEq, Repr

/-- Iteration policy of an animation: a finite count or `infinite`. -/
inductive IterationPolicy where
  | count (n : Nat)
  | infinite
deriving DecidableEq, Repr

/-- Fill mode of an animation. -/
inductive FillMode where
  | forwards
deriving DecidableEq, Repr

/-- One entry of `theme.extend.animation`, the structured reading of an
animation shorthand string such as `'fadeIn 3s ease-in-out forwards'`:
the referenced keyframes name, the duration (in seconds, all durations in
the source are whole seconds), the timing function, the iteration policy
and the optional fill mode, in the order they appear in the shorthand. -/
structure AnimationEntry where
  name : String
  keyframesRef : String
  durationSeconds : Nat
  timing : TimingFunction
  iterations : IterationPolicy
  fillMode : Option FillMode
deriving DecidableEq, Repr

/-- `content` list of the Tailwind config (src/unnamed/part_000 line 4). -/
def content : List String :=
  ["./src/app/**/*.\x7bts,tsx\x7d", "./src/components/**/*.\x7bts,tsx\x7d"]

/-- `plugins` list of the Tailwind config (src/unnamed/part_000 line 5). -/
def plugins : List String := []

/-- `theme.extend.keyframes.fadeIn` (src/unnamed/part_000 lines 9-16). -/
def fadeInKeyframes : KeyframesEntry :=
  ⟨"fadeIn",
    [⟨[0], [⟨"opacity", "0"⟩]⟩,
     ⟨[100], [⟨"opacity", "1"⟩]⟩]⟩

/-- `theme.extend.keyframes.zoomPulse` (src/unnamed/part_000 lines 17-24);
the selector key `'0%, 100%'` contributes the two offsets 0 and 100. -/
def zoomPulseKeyframes : KeyframesEntry :=
  ⟨"zoomPulse",
    [⟨[0, 100], [⟨"transform", "scale(1)"⟩]⟩,
     ⟨[50], [⟨"transform", "scale(0.75)"⟩]⟩]⟩

/-- `theme.extend.keyframes.swingRotate` (src/unnamed/part_000 lines 25-33). -/
def swingRotateKeyframes : KeyframesEntry :=
  ⟨"swingRotate",
    [⟨[0], [⟨"transform", "rotate(0deg)"⟩]⟩,
     ⟨[15], [⟨"transform", "rotate(-20deg)"⟩]⟩,
     ⟨[30], [⟨"transform", "rotate(15deg)"⟩]⟩,
     ⟨[45], [⟨"transform", "rotate(-10deg)"⟩]⟩,
     ⟨[60], [⟨"transform", "rotate(6deg)"⟩]⟩,
     ⟨[75], [⟨"transform", "rotate(-3deg)"⟩]⟩,
     ⟨[100], [⟨"transform", "rotate(0deg)"⟩]⟩]⟩

/-- `theme.extend.keyframes` (src/unnamed/part_000 lines 8-34). -/
def keyframesTable : List KeyframesEntry :=
  [fadeInKeyframes, zoomPulseKeyframes, swingRotateKeyframes]

/-- The raw `theme.extend.animation` shorthand strings
(src/unnamed/part_000 lines 35-39). -/
def animationShorthand : List (String × String) :=
  [("fadeIn", "fadeIn 3s ease-in-out forwards"),
   ("zoomPulse", "zoomPulse 2s ease-in-out infinite"),
   ("swingRotate", "swingRotate 2s cubic-bezier(0.4, 0, 0.2, 1) infinite")]

/-- `theme.extend.animation.fadeIn`, the structured reading of
`'fadeIn 3s ease-in-out forwards'` (src/unnamed/part_000 line 36). -/
def fadeInAnimation : AnimationEntry :=
  ⟨"fadeIn", "fadeIn", 3, .easeInOut, .count 1, some .forwards⟩

/-- `theme.extend.animation.zoomPulse`, the structured reading of
`'zoomPulse 2s ease-in-out infinite'` (src/unnamed/part_000 line 37). -/
def zoomPulseAnimation : AnimationEntry :=
  ⟨"zoomPulse", "zoomPulse", 2, .easeInOut, .infinite, none⟩

/-- `theme.extend.animation.swingRotate`, the structured reading of
`'swingRotate 2s cubic-bezier(0.4, 0, 0.2, 1) infinite'`
(src/unnamed/part_000 line 38). -/
def swingRotateAnimation : AnimationEntry :=
  ⟨"swingRotate", "swingRotate", 2, .cubicBezier 0.4 0 0.2 1, .infinite, none⟩

/-- `theme.extend.animation` (src/unnamed/part_000 lines 35-39). -/
def animationTable : List AnimationEntry :=
  [fadeInAnimation, zoomPulseAnimation, swingRotateAnimation]

/-- The fully resolved definition of one named animation, per the spec's
`AnimationDefinition` data model. -/
structure AnimationDefinition where
  name : String
  keyframes : List KeyframeBlock
  durationSeconds : Nat
  timing : TimingFunction
  iterations : IterationPolicy
  fillMode : Option FillMode
deriving DecidableEq, Repr

/-- Look a name up in `theme.extend.keyframes`. -/
def lookupKeyframes (n : String) : Option KeyframesEntry :=
  keyframesTable.find? (fun e => e.name == n)

/-- Modelled from the spec: the external styling engine's read-only lookup
`resolve(name) -> AnimationDefinition | not found` over the theme table
(its code is not part of this repository; only the table data is).  It
finds the animation entry of the given name and pairs it with the keyframe
blocks that its shorthand references. -/
def resolve (n : String) : Option AnimationDefinition :=
  match animationTable.find? (fun e => e.name == n) with
  | none => none
  | some a =>
    match lookupKeyframes a.keyframesRef with
    | none => none
    | some k =>
      some ⟨a.name, k.blocks, a.durationSeconds, a.timing, a.iterations,
            a.fillMode⟩

/-- The keyframes of an entry as a flat ordered sequence of
`(offsetPercent, styleProperties)` pairs, expanding comma-separated
selector keys into one pair per offset. -/
def expandedKeyframes (blocks : List KeyframeBlock) :
    List (Nat × List StyleProperty) :=
  blocks.flatMap (fun b => b.offsets.map (fun o => (o, b.styles)))

/-- C1: resolving `"fadeIn"` returns a definition whose keyframes are
exactly the two pairs (0%, opacity=0) and (100%, opacity=1), with duration
3s, timing function ease-in-out, iteration count 1 and fill mode forwards. -/
theorem fadeIn_resolves_correctly :
    resolve "fadeIn" =
      some ⟨"fadeIn", fadeInKeyframes.blocks, 3, .easeInOut, .count 1,
            some .forwards⟩
    ∧ expandedKeyframes fadeInKeyframes.blocks =
      [(0, [⟨"opacity", "0"⟩]), (100, [⟨"opacity", "1"⟩])] := by
  decide

/-- C2: resolving `"zoomPulse"` returns a definition whose keyframes are
the three pairs (0%, scale(1)), (50%, scale(0.75)) and (100%, scale(1))
(the source stores 0% and 100% as one comma-keyed block, so the expanded
sequence carries these three pairs), with duration 2s, timing function
ease-in-out and iteration policy infinite. -/
theorem zoomPulse_resolves_correctly :
    resolve "zoomPulse" =
      some ⟨"zoomPulse", zoomPulseKeyframes.blocks, 2, .easeInOut, .infinite,
            none⟩
    ∧ List.Perm (expandedKeyframes zoomPulseKeyframes.blocks)
        [(0, [⟨"transform", "scale(1)"⟩]),
         (50, [⟨"transform", "scale(0.75)"⟩]),
         (100, [⟨"transform", "scale(1)"⟩])] := by
  decide

/-- C3: resolving `"swingRotate"` returns a definition with exactly the
seven keyframe offsets 0, 15, 30, 45, 60, 75 and 100 percent carrying the
rotations 0deg, -20deg, 15deg, -10deg, 6deg, -3deg and 0deg respectively,
with duration 2s, timing function cubic-bezier(0.4, 0, 0.2, 1) and
iteration policy infinite. -/
theorem swingRotate_resolves_correctly :
    resolve "swingRotate" =
      some ⟨"swingRotate", swingRotateKeyframes.blocks, 2,
            .cubicBezier 0.4 0 0.2 1, .infinite, none⟩
    ∧ expandedKeyframes swingRotateKeyframes.blocks =
      [(0, [⟨"transform", "rotate(0deg)"⟩]),
       (15, [⟨"transform", "rotate(-20deg)"⟩]),
       (30, [⟨"transform", "rotate(15deg)"⟩]),
       (45, [⟨"transform", "rotate(-10deg)"⟩]),
       (60, [⟨"transform", "rotate(6deg)"⟩]),
       (75, [⟨"transform", "rotate(-3deg)"⟩]),
       (100, [⟨"transform", "rotate(0deg)"⟩])] := by
  exact ⟨rfl, rfl⟩

/-- C4: resolving any name that is not registered in the animation theme
table returns `none` rather than crashing (`resolve` is a total Lean
function, so totality over all strings is by construction). -/
theorem resolve_unregistered_eq_none (s : String)
    (h : s ∉ animationTable.map AnimationEntry.name) : resolve s = none := by
  have hfind : animationTable.find? (fun e => e.name == s) = none := by
    rw [List.find?_eq_none]
    intro a ha
    simp only [beq_iff_eq]
    intro he
    exact h (he ▸ List.mem_map_of_mem AnimationEntry.name ha)
  simp [resolve, hfind]

/-- Witness for C4: resolving the unregistered name `"doesNotExist"`
returns `none`. -/
theorem resolve_doesNotExist_none : resolve "doesNotExist" = none :=
  resolve_unregistered_eq_none "doesNotExist" (by decide)

/-- C5: the entry names of the animation theme table are pairwise
distinct, in both halves of the table, so each name resolves to at most
one definition. -/
theorem animation_names_pairwise_distinct :
    animationTable.Pairwise (fun a b => a.name ≠ b.name)
    ∧ keyframesTable.Pairwise (fun a b => a.name ≠ b.name) := by
  decide

/-- C6: every entry of the keyframes table has a non-empty keyframe
sequence, and every keyframe offset lies in the closed range [0, 100]. -/
theorem keyframe_offsets_in_range :
    ∀ e ∈ keyframesTable,
      expandedKeyframes e.blocks ≠ [] ∧
      ∀ p ∈ expandedKeyframes e.blocks, 0 ≤ p.1 ∧ p.1 ≤ 100 := by
  decide

/-- Witness for C6 at the `fadeIn` entry. -/
theorem keyframe_offsets_in_range_witness :
    fadeInKeyframes ∈ keyframesTable ∧
      (expandedKeyframes fadeInKeyframes.blocks ≠ [] ∧
       ∀ p ∈ expandedKeyframes fadeInKeyframes.blocks,
         0 ≤ p.1 ∧ p.1 ≤ 100) :=
  ⟨by decide, keyframe_offsets_in_range fadeInKeyframes (by decide)⟩

/-- C7: every entry of the animation table has a strictly positive
duration (3s for fadeIn, 2s for zoomPulse and swingRotate). -/
theorem durations_positive :
    ∀ a ∈ animationTable,
      0 < a.durationSeconds ∧
      (a.name = "fadeIn" → a.durationSeconds = 3) ∧
      (a.name = "zoomPulse" → a.durationSeconds = 2) ∧
      (a.name = "swingRotate" → a.durationSeconds = 2) := by
  decide

/-- Witness for C7 at the `fadeIn` entry. -/
theorem durations_positive_witness :
    fadeInAnimation ∈ animationTable ∧ 0 < fadeInAnimation.durationSeconds :=
  ⟨by decide, (durations_positive fadeInAnimation (by decide)).1⟩

/-- C8: every entry of the animation table whose iteration policy is a
finite count (only fadeIn among the three) has count at least 1. -/
theorem finite_iterations_at_least_one :
    ∀ a ∈ animationTable, ∀ n : Nat,
      a.iterations = IterationPolicy.count n → 1 ≤ n := by
  intro a ha n hn
  fin_cases ha <;>
    simp_all [fadeInAnimation, zoomPulseAnimation, swingRotateAnimation]

/-- Witness for C8 at the `fadeIn` entry, whose finite count is 1. -/
theorem finite_iterations_at_least_one_witness :
    fadeInAnimation ∈ animationTable ∧ 1 ≤ 1 :=
  ⟨by decide,
   finite_iterations_at_least_one fadeInAnimation (by decide) 1 (by decide)⟩

/-- C9: the two halves of the theme extension are mutually consistent:
both halves enumerate exactly the names fadeIn, zoomPulse, swingRotate;
every animation shorthand references the keyframe entry of its own name
and resolves to a complete definition; and every keyframe entry is
referenced by some animation entry. -/
theorem animation_keyframes_aligned :
    animationTable.map AnimationEntry.name =
      ["fadeIn", "zoomPulse", "swingRotate"]
    ∧ keyframesTable.map KeyframesEntry.name =
      ["fadeIn", "zoomPulse", "swingRotate"]
    ∧ (∀ a ∈ animationTable,
        a.keyframesRef = a.name ∧ (resolve a.name).isSome = true)
    ∧ (∀ k ∈ keyframesTable, ∃ a ∈ animationTable,
        a.keyframesRef = k.name) := by
  decide

/-- Witness for C9 at the `fadeIn` entry. -/
theorem animation_keyframes_aligned_witness :
    fadeInAnimation.keyframesRef = fadeInAnimation.name ∧
      (resolve fadeInAnimation.name).isSome = true :=
  animation_keyframes_aligned.2.2.1 fadeInAnimation (by decide)

/-- A token of a content glob pattern after brace expansion: a literal
character, `*` (a run of non-separator characters) or `**/` (zero or more
whole path segments). -/
inductive GlobToken where
  | lit (c : Char)
  | star
  | globstarSlash
deriving DecidableEq, Repr

/-- Split a character list on commas, for the alternatives of a brace
group such as `ts,tsx`. -/
def splitComma : List Char → List (List Char)
  | [] => [[]]
  | c :: rest =>
    if c = ',' then [] :: splitComma rest
    else
      match splitComma rest with
      | [] => [[c]]
      | g :: gs => (c :: g) :: gs

/-- Modelled from the spec: the brace expansion the external
content-scanning tool applies to a glob pattern before matching; the
patterns of this configuration contain at most one brace group. -/
def expandBraces (s : List Char) : List (List Char) :=
  let pre := s.takeWhile (fun c => c ≠ '\x7b')
  match s.dropWhile (fun c => c ≠ '\x7b') with
  | [] => [s]
  | _ :: rest =>
    let inner := rest.takeWhile (fun c => c ≠ '\x7d')
    let post := (rest.dropWhile (fun c => c ≠ '\x7d')).drop 1
    (splitComma inner).map (fun alt => pre ++ alt ++ post)

/-- Tokenize a brace-free glob pattern: `**/` becomes one globstar token,
a remaining `*` a star token, anything else a literal. -/
def tokenize : List Char → List GlobToken
  | [] => []
  | '*' :: '*' :: '/' :: rest => .globstarSlash :: tokenize rest
  | '*' :: rest => .star :: tokenize rest
  | c :: rest => .lit c :: tokenize rest

/-- Drop the characters of a path through its first separator, if any. -/
def dropSeg : List Char → Option (List Char)
  | [] => none
  | c :: rest => if c = '/' then some rest else dropSeg rest

/-- Modelled from the spec: glob matching as performed by the external
content-scanning tool on one pattern, fuel-indexed so that the recursion
is structural: a literal matches itself, `*` matches any run of
non-separator characters, and `**/` matches zero or more whole path
segments.  Every recursive call shrinks the pattern or the path, so fuel
`pattern length + path length + 1` always suffices. -/
def globMatchF : Nat → List GlobToken → List Char → Bool
  | 0, _, _ => false
  | _ + 1, [], s => s.isEmpty
  | _ + 1, .lit _ :: _, [] => false
  | fuel + 1, .lit c :: ps, d :: ds => c == d && globMatchF fuel ps ds
  | fuel + 1, .star :: ps, s =>
    globMatchF fuel ps s ||
      match s with
      | [] => false
      | d :: ds => !(d == '/') && globMatchF fuel (.star :: ps) ds
  | fuel + 1, .globstarSlash :: ps, s =>
    globMatchF fuel ps s ||
      match dropSeg s with
      | none => false
      | some rest => globMatchF fuel (.globstarSlash :: ps) rest

/-- The brace-expanded, tokenized patterns of the `content` list. -/
def contentPatterns : List (List GlobToken) :=
  (content.map String.data).flatMap (fun g => (expandBraces g).map tokenize)

/-- Modelled from the spec: whether the external tool's content scan
matches a path against some pattern of the `content` list. -/
def matchesContent (s : List Char) : Bool :=
  contentPatterns.any (fun p => globMatchF (p.length + s.length + 1) p s)

/-- The literal tokens of a string. -/
def litTokens (s : String) : List GlobToken :=
  s.data.map GlobToken.lit

/-- A pattern made only of literal tokens matches exactly its own
character list. -/
theorem globMatchF_lits_exact :
    ∀ (fuel : Nat) (l s : List Char),
      globMatchF fuel (l.map GlobToken.lit) s = true → s = l := by
  intro fuel
  induction fuel with
  | zero => intro l s h; simp [globMatchF] at h
  | succ n ih =>
    intro l s h
    cases l with
    | nil =>
      cases s with
      | nil => rfl
      | cons d ds => simp [globMatchF] at h
    | cons c l' =>
      cases s with
      | nil => simp [globMatchF] at h
      | cons d ds =>
        simp only [List.map_cons, globMatchF, Bool.and_eq_true,
          beq_iff_eq] at h
        rw [h.1, ih l' ds h.2]

/-- If a pattern beginning with the literal tokens of `l` matches `s`,
then `l` is an initial segment of `s`. -/
theorem globMatchF_lits_left :
    ∀ (l : List Char) (fuel : Nat) (ps : List GlobToken) (s : List Char),
      globMatchF fuel (l.map GlobToken.lit ++ ps) s = true →
      ∃ t, s = l ++ t := by
  intro l
  induction l with
  | nil => intro fuel ps s _; exact ⟨s, rfl⟩
  | cons c l' ih =>
    intro fuel ps s h
    cases fuel with
    | zero => simp [globMatchF] at h
    | succ n =>
      cases s with
      | nil => simp [globMatchF] at h
      | cons d ds =>
        simp only [List.map_cons, List.cons_append, globMatchF,
          Bool.and_eq_true, beq_iff_eq] at h
        obtain ⟨t, ht⟩ := ih n ps ds h.2
        exact ⟨t, by rw [h.1, ht, List.cons_append]⟩

/-- Dropping a path segment is dropping a prefix of the path. -/
theorem dropSeg_decomp :
    ∀ (s r : List Char), dropSeg s = some r → ∃ u, s = u ++ r := by
  intro s
  induction s with
  | nil => intro r h; simp [dropSeg] at h
  | cons c cs ih =>
    intro r h
    by_cases hc : c = '/'
    · simp only [dropSeg, if_pos hc, Option.some.injEq] at h
      exact ⟨[c], by rw [h]; rfl⟩
    · simp only [dropSeg, if_neg hc] at h
      obtain ⟨u, hu⟩ := ih r h
      exact ⟨c :: u, by rw [hu]; rfl⟩

/-- If a pattern ending with the literal tokens of `l` matches `s`, then
`l` is a final segment of `s`. -/
theorem globMatchF_lits_right :
    ∀ (fuel : Nat) (ps : List GlobToken) (l s : List Char),
      globMatchF fuel (ps ++ l.map GlobToken.lit) s = true →
      ∃ t, s = t ++ l := by
  intro fuel
  induction fuel with
  | zero => intro ps l s h; simp [globMatchF] at h
  | succ n ih =>
    intro ps l s h
    cases ps with
    | nil =>
      rw [List.nil_append] at h
      exact ⟨[], by rw [globMatchF_lits_exact (n + 1) l s h,
        List.nil_append]⟩
    | cons p ps' =>
      cases p with
      | lit c =>
        cases s with
        | nil => simp [globMatchF] at h
        | cons d ds =>
          simp only [List.cons_append, globMatchF, Bool.and_eq_true,
            beq_iff_eq] at h
          obtain ⟨t, ht⟩ := ih ps' l ds h.2
          exact ⟨d :: t, by rw [ht]; rfl⟩
      | star =>
        simp only [List.cons_append, globMatchF, Bool.or_eq_true] at h
        rcases h with h | h
        · exact ih ps' l s h
        · cases s with
          | nil => simp at h
          | cons d ds =>
            simp only [Bool.and_eq_true] at h
            obtain ⟨t, ht⟩ := ih (.star :: ps') l ds h.2
            exact ⟨d :: t, by rw [ht]; rfl⟩
      | globstarSlash =>
        simp only [List.cons_append, globMatchF, Bool.or_eq_true] at h
        rcases h with h | h
        · exact ih ps' l s h
        · cases hds : dropSeg s with
          | none => rw [hds] at h; simp at h
          | some rest =>
            rw [hds] at h
            obtain ⟨t, ht⟩ := ih (.globstarSlash :: ps') l rest h
            obtain ⟨u, hu⟩ := dropSeg_decomp s rest hds
            exact ⟨u ++ t, by rw [hu, ht, List.append_assoc]⟩

/-- A list is a Boolean-level initial segment of itself extended. -/
theorem isPrefixOf_append (l t : List Char) :
    l.isPrefixOf (l ++ t) = true := by
  induction l with
  | nil => simp [List.isPrefixOf]
  | cons c cs ih => simp [List.isPrefixOf, ih]

/-- A list is a Boolean-level final segment of itself prepended to. -/
theorem isSuffixOf_append (l t : List Char) :
    l.isSuffixOf (t ++ l) = true := by
  rw [List.isSuffixOf, List.reverse_append]
  exact isPrefixOf_append _ _

/-- A Boolean-level initial segment starting with `a` forces the list to
start with `a`. -/
theorem isPrefixOf_head (a : Char) (as x : List Char)
    (h : (a :: as).isPrefixOf x = true) : ∃ y, x = a :: y := by
  cases x with
  | nil => simp [List.isPrefixOf] at h
  | cons b bs =>
    simp only [List.isPrefixOf, Bool.and_eq_true, beq_iff_eq] at h
    exact ⟨bs, by rw [h.1]⟩

/-- Matching a pattern of shape `literals ++ middle ++ literals` bounds
both ends of the matched path. -/
theorem globMatchF_scope (fuel : Nat) (l : List Char)
    (mid : List GlobToken) (r s : List Char)
    (h : globMatchF fuel
      (l.map GlobToken.lit ++ (mid ++ r.map GlobToken.lit)) s = true) :
    l.isPrefixOf s = true ∧ r.isSuffixOf s = true := by
  obtain ⟨t, ht⟩ := globMatchF_lits_left l fuel _ s h
  rw [← List.append_assoc] at h
  obtain ⟨u, hu⟩ := globMatchF_lits_right fuel _ r s h
  constructor
  · rw [ht]; exact isPrefixOf_append l t
  · rw [hu]; exact isSuffixOf_append r u

/-- The list of content patterns, written out. -/
theorem contentPatterns_eq :
    contentPatterns =
      [litTokens "./src/app/" ++
         ([.globstarSlash, .star] ++ litTokens ".ts"),
       litTokens "./src/app/" ++
         ([.globstarSlash, .star] ++ litTokens ".tsx"),
       litTokens "./src/components/" ++
         ([.globstarSlash, .star] ++ litTokens ".ts"),
       litTokens "./src/components/" ++
         ([.globstarSlash, .star] ++ litTokens ".tsx")] := by
  decide

/-- Reversing a list that ends in `l ++ [c]` starts with `c`. -/
theorem reverse_head_append (s u l : List Char) (c : Char)
    (hu : s = u ++ (l ++ [c])) :
    s.reverse = c :: (l.reverse ++ u.reverse) := by
  subst hu
  simp

/-- C10: the content-scanning glob list is exactly the two patterns
`./src/app/**/*.{ts,tsx}` and `./src/components/**/*.{ts,tsx}`; every
path the content scan matches starts with `./src/app/` or
`./src/components/` and ends with `.ts` or `.tsx`; and no path ending in
`.vue` matches any pattern of the list. -/
theorem content_globs_scope :
    content = ["./src/app/**/*.\x7bts,tsx\x7d",
               "./src/components/**/*.\x7bts,tsx\x7d"]
    ∧ (∀ s : List Char, matchesContent s = true →
        (("./src/app/".data.isPrefixOf s = true) ∨
         ("./src/components/".data.isPrefixOf s = true)) ∧
        ((".ts".data.isSuffixOf s = true) ∨
         (".tsx".data.isSuffixOf s = true)))
    ∧ (∀ s : List Char, ".vue".data.isSuffixOf s = true →
        matchesContent s = false) := by
  refine ⟨rfl, ?_, ?_⟩
  · intro s hm
    rw [matchesContent, List.any_eq_true] at hm
    obtain ⟨p, hp, hmatch⟩ := hm
    rw [contentPatterns_eq] at hp
    simp only [List.mem_cons, List.not_mem_nil, or_false] at hp
    rcases hp with rfl | rfl | rfl | rfl
    · have h := globMatchF_scope _ "./src/app/".data _ ".ts".data s hmatch
      exact ⟨Or.inl h.1, Or.inl h.2⟩
    · have h := globMatchF_scope _ "./src/app/".data _ ".tsx".data s hmatch
      exact ⟨Or.inl h.1, Or.inr h.2⟩
    · have h := globMatchF_scope _ "./src/components/".data _ ".ts".data s
        hmatch
      exact ⟨Or.inr h.1, Or.inl h.2⟩
    · have h := globMatchF_scope _ "./src/components/".data _ ".tsx".data s
        hmatch
      exact ⟨Or.inr h.1, Or.inr h.2⟩
  · intro s hv
    cases hmc : matchesContent s with
    | false => rfl
    | true =>
      exfalso
      rw [matchesContent, List.any_eq_true] at hmc
      obtain ⟨p, hp, hmatch⟩ := hmc
      rw [contentPatterns_eq] at hp
      simp only [List.mem_cons, List.not_mem_nil, or_false] at hp
      rw [List.isSuffixOf] at hv
      obtain ⟨y, hy⟩ := isPrefixOf_head 'e' ['u', 'v', '.'] s.reverse (by
        have hrev : ".vue".data.reverse = ['e', 'u', 'v', '.'] := by decide
        rwa [hrev] at hv)
      rcases hp with rfl | rfl | rfl | rfl
      · rw [← List.append_assoc] at hmatch
        obtain ⟨u, hu⟩ := globMatchF_lits_right _ _ ".ts".data s hmatch
        rw [show ".ts".data = ['.', 't'] ++ ['s'] from rfl] at hu
        rw [reverse_head_append s u ['.', 't'] 's' hu] at hy
        simp at hy
      · rw [← List.append_assoc] at hmatch
        obtain ⟨u, hu⟩ := globMatchF_lits_right _ _ ".tsx".data s hmatch
        rw [show ".tsx".data = ['.', 't', 's'] ++ ['x'] from rfl] at hu
        rw [reverse_head_append s u ['.', 't', 's'] 'x' hu] at hy
        simp at hy
      · rw [← List.append_assoc] at hmatch
        obtain ⟨u, hu⟩ := globMatchF_lits_right _ _ ".ts".data s hmatch
        rw [show ".ts".data = ['.', 't'] ++ ['s'] from rfl] at hu
        rw [reverse_head_append s u ['.', 't'] 's' hu] at hy
        simp at hy
      · rw [← List.append_assoc] at hmatch
        obtain ⟨u, hu⟩ := globMatchF_lits_right _ _ ".tsx".data s hmatch
        rw [show ".tsx".data = ['.', 't', 's'] ++ ['x'] from rfl] at hu
        rw [reverse_head_append s u ['.', 't', 's'] 'x' hu] at hy
        simp at hy

/-- Witness for C10: the matched path `./src/app/pages/index.tsx` is
scoped as the theorem states, and the path `./src/components/Button.vue`
does not match the content scan. -/
theorem content_globs_scope_witness :
    ((("./src/app/".data.isPrefixOf "./src/app/pages/index.tsx".data =
         true) ∨
      ("./src/components/".data.isPrefixOf
         "./src/app/pages/index.tsx".data = true)) ∧
     ((".ts".data.isSuffixOf "./src/app/pages/index.tsx".data = true) ∨
      (".tsx".data.isSuffixOf "./src/app/pages/index.tsx".data = true))) ∧
    matchesContent "./src/components/Button.vue".data = false :=
  ⟨content_globs_scope.2.1 _ (by decide),
   content_globs_scope.2.2 _ (by decide)⟩

end VTT
